import Mathlib

/-!
Verification development for the ya-fetch request-execution pipeline
(src/src/index.ts, second historical variant, lines 377-723: the one with
the retry policy and attempt counters, which is the variant the claim
sources cite).

The embedding is shallow: the platform collaborators (Headers,
URLSearchParams, URL, AbortController, fetch) are modelled by their
observable behaviour; the library code (mergeOptions, mergeMaps,
serialize, DEFAULTS, request) is translated function by function.
-/

namespace YaFetch

/-! ## Header maps (platform Headers collaborator)

The platform Headers container normalizes keys to lower case.  `append`
on an existing key joins the old and new value with a comma and a space;
`set` replaces the value.  `get` returns the (possibly joined) value.
-/

/-- Header keys are normalized to lower case by the platform container.
(Implemented over the character list so that it evaluates inside the
kernel.) -/
def normKey (k : String) : String := String.mk (k.toList.map Char.toLower)

/-- Model of the platform Headers container: association list of
normalized keys to (possibly comma-joined) values. -/
structure HeaderMap where
  entries : List (String × String)
deriving DecidableEq

namespace HeaderMap

def empty : HeaderMap := ⟨[]⟩

/-- Headers.get: first (unique, once well formed) entry for the key. -/
def get (h : HeaderMap) (k : String) : Option String :=
  (h.entries.find? (fun e => e.1 == normKey k)).map (fun e => e.2)

/-- Headers.append: joins with a previous value for the same key using
a comma and a space, otherwise adds a fresh entry at the end. -/
def append (h : HeaderMap) (k v : String) : HeaderMap :=
  let nk := normKey k
  if h.entries.any (fun e => e.1 == nk) then
    ⟨h.entries.map (fun e => if e.1 == nk then (e.1, e.2 ++ ", " ++ v) else e)⟩
  else
    ⟨h.entries ++ [(nk, v)]⟩

/-- Headers.set: replaces the value for the key, otherwise adds it. -/
def set (h : HeaderMap) (k v : String) : HeaderMap :=
  let nk := normKey k
  if h.entries.any (fun e => e.1 == nk) then
    ⟨h.entries.map (fun e => if e.1 == nk then (e.1, v) else e)⟩
  else
    ⟨h.entries ++ [(nk, v)]⟩

/-- new Headers(init): entries of a HeadersInit are appended one by one. -/
def ofInit (init : List (String × String)) : HeaderMap :=
  init.foldl (fun h e => h.append e.1 e.2) empty

/-- All keys are in normalized form. -/
def keysNormalized (l : List (String × String)) : Bool :=
  l.all (fun e => e.1 == normKey e.1)

/-- No key occurs twice. -/
def keysDistinct : List (String × String) → Bool
  | [] => true
  | e :: es => (!es.any (fun x => x.1 == e.1)) && keysDistinct es

/-- Well-formedness of a header map as the platform container maintains
it: keys normalized and unique (append/set join or replace in place). -/
def WF (h : HeaderMap) : Bool :=
  keysNormalized h.entries && keysDistinct h.entries

end HeaderMap

/-- mergeMaps specialised to Headers (src lines 551-561): copy the left
map, then `append` every entry of the right map into it. -/
def mergeHeaders (left right : HeaderMap) : HeaderMap :=
  right.entries.foldl (fun h e => h.append e.1 e.2) left

/-! ## Search params (platform URLSearchParams collaborator) -/

/-- Model of URLSearchParams: entries in insertion order, repeated keys
allowed, `append` adds at the end. -/
structure SearchParams where
  entries : List (String × String)
deriving DecidableEq

namespace SearchParams

def empty : SearchParams := ⟨[]⟩

def append (p : SearchParams) (k v : String) : SearchParams :=
  ⟨p.entries ++ [(k, v)]⟩

def get (p : SearchParams) (k : String) : Option String :=
  (p.entries.find? (fun e => e.1 == k)).map (fun e => e.2)

end SearchParams

/-- Split a character list on every occurrence of a separator. -/
def splitOnChar (sep : Char) : List Char → List (List Char)
  | [] => [[]]
  | c :: rest =>
    let r := splitOnChar sep rest
    if c == sep then [] :: r
    else
      match r with
      | [] => [[c]]
      | g :: gs => (c :: g) :: gs

/-- Split a character list at the first occurrence of a separator. -/
def splitFirst (sep : Char) : List Char → List Char × Option (List Char)
  | [] => ([], none)
  | c :: cs =>
    if c == sep then ([], some cs)
    else
      let r := splitFirst sep cs
      (c :: r.1, r.2)

/-- Coarse model of URLSearchParams string parsing (percent decoding is
not modelled; no claim depends on it). -/
def parseQuery (s : String) : SearchParams :=
  ⟨(splitOnChar '&' s.toList).filterMap (fun piece =>
    match piece with
    | [] => none
    | _ =>
      let kv := splitFirst '=' piece
      some (String.mk kv.1, String.mk ((kv.2).getD [])))⟩

/-- mergeMaps specialised to URLSearchParams: copy left, append right. -/
def mergeSearchParams (left right : SearchParams) : SearchParams :=
  ⟨left.entries ++ right.entries⟩

/-- A `params` option value: plain object, URLSearchParams, or string. -/
inductive PValue
  | str (s : String)
  | arr (xs : List String)
  | null
deriving DecidableEq

inductive ParamsArg
  | obj (kvs : List (String × PValue))
  | search (p : SearchParams)
  | raw (s : String)

/-- A custom serializer returns URLSearchParams or a raw string. -/
abbrev SerializeFn := List (String × PValue) → String ⊕ SearchParams

/-- The default `serialize` (src lines 537-549): array values appended
item by item, null and undefined values skipped. -/
def serialize (input : List (String × PValue)) : SearchParams :=
  input.foldl
    (fun p kv =>
      match kv.2 with
      | .arr xs => xs.foldl (fun p x => p.append kv.1 x) p
      | .str s => p.append kv.1 s
      | .null => p)
    SearchParams.empty

/-- normalizeParams (src lines 563-569): strings and URLSearchParams are
passed through; plain objects go through the serializer (the custom one
when given, otherwise the default). -/
def normalizeParams (transform : Option SerializeFn) (params : Option ParamsArg) :
    String ⊕ SearchParams :=
  match params with
  | none => Sum.inl ""
  | some (.raw s) => Sum.inl s
  | some (.search p) => Sum.inr p
  | some (.obj kvs) =>
    match transform with
    | some f => f kvs
    | none => Sum.inr (serialize kvs)

/-- new URLSearchParams(x) where x is a raw string or an existing
URLSearchParams. -/
def toSearchParams : String ⊕ SearchParams → SearchParams
  | Sum.inl s => parseQuery s
  | Sum.inr p => p

/-! ## JSON payloads -/

inductive Json
  | null
  | bool (b : Bool)
  | num (n : Int)
  | str (s : String)
  | arr (xs : List Json)
  | obj (kvs : List (String × Json))

/-- Minimal JSON string escaping (quote and backslash). -/
def escapeJson (s : String) : String :=
  s.foldl
    (fun acc c =>
      if c == '"' then acc ++ "\\\""
      else if c == '\\' then acc ++ "\\\\"
      else acc.push c)
    ""

mutual

/-- Model of JSON.stringify on the modelled JSON values. -/
def Json.stringify : Json → String
  | .null => "null"
  | .bool true => "true"
  | .bool false => "false"
  | .num n => toString n
  | .str s => "\"" ++ escapeJson s ++ "\""
  | .arr xs => "[" ++ stringifyList xs ++ "]"
  | .obj kvs => "\x7b" ++ stringifyObj kvs ++ "\x7d"

def stringifyList : List Json → String
  | [] => ""
  | [x] => Json.stringify x
  | x :: xs => Json.stringify x ++ "," ++ stringifyList xs

def stringifyObj : List (String × Json) → String
  | [] => ""
  | [kv] => "\"" ++ escapeJson kv.1 ++ "\":" ++ Json.stringify kv.2
  | kv :: kvs => "\"" ++ escapeJson kv.1 ++ "\":" ++ Json.stringify kv.2 ++ "," ++ stringifyObj kvs

end

/-! ## Responses, errors, bodies -/

/-- The transport's response representation, decorated (once, at
creation) with the attempt number; `bodyUsed` tracks body consumption. -/
structure Response where
  status : Nat
  headers : HeaderMap := .empty
  bodyText : String := ""
  bodyUsed : Bool := false
  attempt : Nat := 0
deriving DecidableEq

/-- Response.ok: status in the 200-299 range. -/
def Response.ok (r : Response) : Bool :=
  200 ≤ r.status && r.status ≤ 299

/-- The error taxonomy. `responseError` and `timeoutError` are the
library's own classes; `invalidTarget` is the URL-constructor failure
(the spec names it InvalidTargetError); `abortError` is the transport's
cancellation rejection; `bodyUsedError` is the platform body-reuse
failure; `fuelOut` is an artifact of the bounded recursion in the model,
never reached by the theorems (they supply enough fuel). -/
inductive Err
  | responseError (r : Response)
  | timeoutError
  | invalidTarget
  | abortError
  | bodyUsedError
  | fuelOut
deriving DecidableEq

/-- Request bodies: serialized text, a multipart form payload (opaque,
recognized by type only), or some other opaque body. -/
inductive Body
  | text (s : String)
  | formData
  | opaqueBody
deriving DecidableEq

/-! ## Options (Configuration value object) -/

/-- The configuration value object (src RequiredOptions, lines 413-483).
Header inits are modelled in constructed form (HeaderMap); hooks are
modelled as total functions returning Except for hooks that may throw.
`onRequest` (a no-op by default) and `highWaterMark` are not modelled:
no claim depends on them. -/
structure Options where
  base : Option String := none
  resource : Option String := none
  method : Option String := none
  headers : HeaderMap := .empty
  params : Option ParamsArg := none
  json : Option Json := none
  body : Option Body := none
  serialize : Option SerializeFn := none
  timeout : Option Nat := none
  onResponse : Option (Response → Except Err Response) := none
  onSuccess : Option (Response → Except Err Response) := none
  onFailure : Option (Err → Except Err Response) := none
  retry : Option (Response → Bool) := none
  delay : Option (Response → Nat) := none
  onJSON : Option (Json → Json) := none

/-- The default onResponse (src lines 523-529): pass ok responses
through, otherwise throw a ResponseError carrying the response. -/
def defaultOnResponse (r : Response) : Except Err Response :=
  if r.ok then .ok r else .error (.responseError r)

/-- The default retry predicate (src lines 530-532). -/
def defaultRetry (r : Response) : Bool :=
  r.attempt < 2 && [408, 413, 429, 500, 502, 503, 504].contains r.status

/-- The default retry delay (src line 533): `0.3 * 2 ** attempt * 1000`
milliseconds.  The float expression evaluates exactly to `300 * 2 ^
attempt` (scaling by a power of two is exact, and the final product
rounds to the integer), so the model uses the integer form. -/
def defaultDelay (r : Response) : Nat :=
  300 * 2 ^ r.attempt

/-- DEFAULTS (src lines 516-535).  `base` is `location.origin` when a
`location` global exists; the model takes the Node environment, where it
is undefined. -/
def DEFAULTS : Options :=
  { base := none
    onResponse := some defaultOnResponse
    retry := some defaultRetry
    delay := some defaultDelay
    onJSON := some (fun j => j) }

/-- mergeOptions (src lines 571-584): Object.assign of left then right,
with `resource` concatenated, `headers` and `params` merged by the
container merge above. -/
def mergeOptions (left right : Options) : Options :=
  let ser := right.serialize <|> left.serialize
  { base := right.base <|> left.base
    resource := some ((left.resource.getD "") ++ (right.resource.getD ""))
    method := right.method <|> left.method
    headers := mergeHeaders left.headers right.headers
    params := some (.search (mergeSearchParams
      (toSearchParams (normalizeParams ser left.params))
      (toSearchParams (normalizeParams ser right.params))))
    json := right.json <|> left.json
    body := right.body <|> left.body
    serialize := ser
    timeout := right.timeout <|> left.timeout
    onResponse := right.onResponse <|> left.onResponse
    onSuccess := right.onSuccess <|> left.onSuccess
    onFailure := right.onFailure <|> left.onFailure
    retry := right.retry <|> left.retry
    delay := right.delay <|> left.delay
    onJSON := right.onJSON <|> left.onJSON }

/-! ## URL resolution (platform URL collaborator) -/

def isSchemeChar (c : Char) : Bool :=
  c.isAlphanum || c == '+' || c == '-' || c == '.'

/-- A string is an absolute URL when it starts with a nonempty scheme
followed by a colon (the condition under which `new URL(s)` succeeds,
coarsely). -/
def isAbsoluteURL (s : String) : Bool :=
  match (splitFirst ':' s.toList).2 with
  | none => false
  | some _ =>
    match (splitFirst ':' s.toList).1 with
    | [] => false
    | c :: cs => c.isAlpha && cs.all isSchemeChar

/-- Characters of the scheme-and-host part of an absolute URL (coarse;
used only to build join results that no claim constrains). -/
def originChars : List Char → List Char
  | [] => []
  | '/' :: '/' :: rest => '/' :: '/' :: rest.takeWhile (fun c => !(c == '/'))
  | c :: rest => c :: originChars rest

def originOf (b : String) : String := String.mk (originChars b.toList)

/-- Coarse model of WHATWG relative resolution: absolute paths replace
the base path, other fragments are attached after the base. -/
def joinURL (b r : String) : String :=
  match r.toList with
  | [] => b
  | c :: _ => if c == '/' then originOf b ++ r else b ++ "/" ++ r

/-- new URL(resource, base) (src line 615): succeeds when the resource
is absolute or the base is an absolute URL; otherwise the constructor
throws, which the spec taxonomy names InvalidTargetError. -/
def resolveURL (resource : String) (base : Option String) : Except Err String :=
  if isAbsoluteURL resource then .ok resource
  else
    match base with
    | some b => if isAbsoluteURL b then .ok (joinURL b resource) else .error .invalidTarget
    | none => .error .invalidTarget

/-! ## Request materialization (src lines 614-639, synchronous executor
prefix: URL resolution, query attachment, JSON body handling, timeout
arming) -/

/-- The dispatch-ready form of one attempt: what `fetch` receives. -/
structure Dispatched where
  url : String
  query : SearchParams
  headers : HeaderMap
  body : Option Body
  usesInternalSignal : Bool

/-- The synchronous executor prefix of `request` (src lines 614-639):
resolve the URL, attach the merged query, then — when a non-null JSON
payload is present — stringify it into the body and force the JSON
content-type via Headers.set; arm the internal controller when a
positive timeout is configured (its signal replaces `options.signal`
before fetch runs). -/
def materialize (o : Options) : Except Err Dispatched :=
  match resolveURL (o.resource.getD "") o.base with
  | .error e => .error e
  | .ok u =>
    let q := toSearchParams (normalizeParams o.serialize o.params)
    let internal := 0 < o.timeout.getD 0
    match o.json with
    | none =>
      .ok { url := u, query := q, headers := o.headers, body := o.body,
            usesInternalSignal := internal }
    | some Json.null =>
      .ok { url := u, query := q, headers := o.headers, body := o.body,
            usesInternalSignal := internal }
    | some j =>
      .ok { url := u, query := q,
            headers := o.headers.set "content-type" "application/json",
            body := some (.text (Json.stringify j)),
            usesInternalSignal := internal }

/-! ## The lifecycle chain and the retry loop (src lines 607-658)

The promise chain is modelled as a recursive function over a fuel bound
(the source recursion is bounded only by the retry predicate).  Each run
returns the final settlement together with an event trace recording, in
order: transport invocations, retry-predicate consultations, waits, and
hook executions.
-/

inductive Ev
  | fetched (attempt : Nat)
  | retryChecked (attempt : Nat) (decision : Bool)
  | waited (attempt : Nat) (ms : Nat)
  | classified (attempt : Nat)
  | succeeded (attempt : Nat)
  | failed (attempt : Nat)
deriving DecidableEq

/-- `.then(options.onResponse)` on a fulfillment: an absent hook passes
the response through. -/
def applyOnResponse (o : Options) (r : Response) : Except Err Response :=
  match o.onResponse with
  | some f => f r
  | none => .ok r

/-- The tail of the promise chain for one frame (src lines 657-658):
`.then(options.onResponse).then(options.onSuccess, options.onFailure)`.
Fulfillments flow through onResponse (which may throw) then onSuccess;
rejections skip onResponse and reach onFailure, which may recover or
rethrow; an absent hook passes the settlement through.  The `classified`
event marks the frame's classification stage (after the DEFAULTS merge
the hook is always present: the default passes ok responses and throws
ResponseError). -/
def postChain (o : Options) (a : Nat) : Except Err Response → Except Err Response × List Ev
  | .ok r =>
    match applyOnResponse o r with
    | .ok r1 =>
      match o.onSuccess with
      | some f => (f r1, [.classified a, .succeeded a])
      | none => (.ok r1, [.classified a])
    | .error e1 =>
      match o.onFailure with
      | some f => (f e1, [.classified a, .failed a])
      | none => (.error e1, [.classified a])
  | .error e =>
    match o.onFailure with
    | some f => (f e, [.failed a])
    | none => (.error e, [])

/-- The transport collaborator: per attempt, an asynchronous settlement
(ok response or opaque transport error). -/
abbrev Transport := Nat → Except Err Response

/-- The full `request` pipeline (src lines 607-658).  One frame: merge
DEFAULTS under the caller options, materialize, invoke the transport,
decorate the raw result with the attempt number, consult the retry
predicate on the raw result; on a positive decision wait the delay and
recurse with `(options, attempt + 1)`, then run this frame's
onResponse/onSuccess/onFailure tail on the inner invocation's final
value; on a negative decision run the tail on the raw result.
Rejections (materialization or transport) skip the retry check and the
classification and reach only onFailure. -/
def runReq (t : Transport) (fuel : Nat) (baseOptions : Options) (attempt : Nat) :
    Except Err Response × List Ev :=
  match fuel with
  | 0 => (.error .fuelOut, [])
  | fuel' + 1 =>
    let options := mergeOptions DEFAULTS baseOptions
    match materialize options with
    | .error e => postChain options attempt (.error e)
    | .ok _d =>
      match t attempt with
      | .error e =>
        let post := postChain options attempt (.error e)
        (post.1, .fetched attempt :: post.2)
      | .ok r0 =>
        let r := { r0 with attempt := attempt }
        let dec := (options.retry.getD (fun _ => false)) r
        if dec then
          let d := (options.delay.getD (fun _ => 0)) r
          let inner := runReq t fuel' options (attempt + 1)
          let post := postChain options attempt inner.1
          (post.1,
           .fetched attempt :: .retryChecked attempt true :: .waited attempt d ::
             (inner.2 ++ post.2))
        else
          let post := postChain options attempt (.ok r)
          (post.1, .fetched attempt :: .retryChecked attempt false :: post.2)

/-! ## The cancellation coordinator (src lines 623-645)

A separate timing view of one attempt: the timer (at `timeout`, when
positive), an optional external abort, and the transport settlement race;
the earliest event wins.  When a positive timeout is configured an
internal AbortController is created and its signal replaces
`options.signal` before fetch runs, so the transport observes the
internal token.  Timer first: reject TimeoutError, abort the internal
controller.  External abort first: clear the timer, abort the internal
controller, and the transport rejects with its own abort semantics.
Settlement first: resolve/reject with the transport result and clear the
timer; later events are no-ops. -/

/-- `winsOver a b`: the event at time `a` strictly precedes the event at
time `b` (`none` = the event never happens). -/
def winsOver : Option Nat → Option Nat → Bool
  | none, _ => false
  | some _, none => true
  | some x, some y => x < y

structure CoordResult where
  outcome : Option (Except Err Response)
  internalAborted : Bool
  fetchSignalInternal : Bool

def coordinate (timeout : Nat) (settleAt extAt : Option Nat) (result : Except Err Response) :
    CoordResult :=
  if timeout = 0 then
    { outcome :=
        if winsOver extAt settleAt then some (.error .abortError)
        else settleAt.map (fun _ => result)
      internalAborted := false
      fetchSignalInternal := false }
  else if winsOver settleAt (some timeout) && !winsOver extAt settleAt then
    { outcome := some result, internalAborted := false, fetchSignalInternal := true }
  else if winsOver extAt (some timeout) && winsOver extAt settleAt then
    { outcome := some (.error .abortError), internalAborted := true, fetchSignalInternal := true }
  else
    { outcome := some (.error .timeoutError), internalAborted := true, fetchSignalInternal := true }

/-! ## The response facade (src lines 660-667)

Each named decode operation, run against the settled response: `void`
resolves to an absent value without touching the body; every other kind
clones the settled response and consumes the clone's body, so the
original response's body is never consumed; `json` additionally pipes
the parsed value through the `onJSON` transform.  (Each call also sets
the shared accept header before dispatch; that mutation does not touch
the decode result and is not modelled here.)  JSON grammar parsing is a
parameter `parse`: the theorems hold for every parse function. -/

inductive DecodeKind
  | json
  | text
  | blob
  | arrayBuffer
  | formData
  | void
deriving DecidableEq

/-- CONTENT_TYPES (src lines 507-514): accept header value per kind. -/
def acceptFor : DecodeKind → String
  | .json => "application/json"
  | .text => "text/*"
  | .formData => "multipart/form-data"
  | _ => "*/*"

inductive Decoded
  | jsonD (j : Json)
  | textD (s : String)
  | blobD (s : String)
  | arrayBufferD (s : String)
  | formDataD (s : String)

/-- Response.clone(): a fresh unconsumed copy; throws once the body of
the receiver has already been consumed. -/
def cloneResponse (r : Response) : Except Err Response :=
  if r.bodyUsed then .error .bodyUsedError else .ok { r with bodyUsed := false }

/-- Reading a body (`.text()`, `.json()`, ...): consumes it; throws when
it was already consumed. -/
def consumeBody (r : Response) : Except Err (String × Response) :=
  if r.bodyUsed then .error .bodyUsedError
  else .ok (r.bodyText, { r with bodyUsed := true })

/-- One decode operation of the facade against the settled response
(src lines 660-667): returns the decoded value (absent for `void`)
together with the state of the original response after the call. -/
def bodyMethod (parse : String → Json) (o : Options) (k : DecodeKind) (r : Response) :
    Except Err (Option Decoded × Response) :=
  match k with
  | .void => .ok (none, r)
  | k =>
    match cloneResponse r with
    | .error e => .error e
    | .ok c =>
      match consumeBody c with
      | .error e => .error e
      | .ok (s, _) =>
        match k with
        | .json => .ok (some (.jsonD ((o.onJSON.getD (fun j => j)) (parse s))), r)
        | .text => .ok (some (.textD s), r)
        | .blob => .ok (some (.blobD s), r)
        | .arrayBuffer => .ok (some (.arrayBufferD s), r)
        | .formData => .ok (some (.formDataD s), r)
        | .void => .ok (none, r)

/-- The value a decode operation yields (projection of `bodyMethod`). -/
def decodeValue (parse : String → Json) (o : Options) (k : DecodeKind) (r : Response) :
    Option Decoded :=
  match bodyMethod parse o k r with
  | .ok (v, _) => v
  | .error _ => none

/-! ## Spec-side helpers used to state the claims on traces -/

/-- Waits recorded in a trace, as (attempt, milliseconds) pairs. -/
def waitedOf (tr : List Ev) : List (Nat × Nat) :=
  tr.filterMap (fun e =>
    match e with
    | .waited a ms => some (a, ms)
    | _ => none)

/-- Every recorded wait equals the default exponential backoff for its
attempt number. -/
def waitsAreBackoff (tr : List Ev) : Bool :=
  tr.all (fun e =>
    match e with
    | .waited a ms => ms == 300 * 2 ^ a
    | _ => true)

/-- Decimal parsing of a digit string (kernel-evaluable stand-in for the
library string-to-number conversion). -/
def parseNat : List Char → Nat → Option Nat
  | [], acc => some acc
  | c :: cs, acc =>
    if c.isDigit then parseNat cs (acc * 10 + (c.toNat - 48)) else none

/-- Modelled from the spec: the retry-after directive of a result,
normalized to milliseconds (the whole-second count form; the
absolute-timestamp form needs a clock and is not needed to decide the
claim, which already fails on the seconds form). -/
def specRetryAfterMs (r : Response) : Option Nat :=
  (r.headers.get "retry-after").bind (fun s =>
    match s.toList with
    | [] => none
    | l => (parseNat l 0).map (fun n => n * 1000))

/-- Modelled from the spec: the delay the claim says is waited — the
retry-after directive when the result carries one, otherwise the default
exponential backoff. -/
def specDelayC2 (r : Response) : Nat :=
  (specRetryAfterMs r).getD (300 * 2 ^ r.attempt)

/-- The ordering property claim C3 asserts, as a trace predicate: every
retry-predicate consultation for an attempt is preceded by that
attempt's classification event. -/
def checksAfterClassified : List Nat → List Ev → Bool
  | _, [] => true
  | seen, e :: rest =>
    match e with
    | .retryChecked a _ => seen.contains a && checksAfterClassified seen rest
    | .classified a => checksAfterClassified (a :: seen) rest
    | _ => checksAfterClassified seen rest

/-- Number of classification-hook executions recorded in a trace. -/
def countClassified (tr : List Ev) : Nat :=
  tr.countP (fun e =>
    match e with
    | .classified _ => true
    | _ => false)

/-- Number of transport invocations recorded in a trace. -/
def countFetched (tr : List Ev) : Nat :=
  tr.countP (fun e =>
    match e with
    | .fetched _ => true
    | _ => false)

/-! ## Header map lemmas -/

namespace HeaderMap

/-- The value-joining rewrite of `append` leaves every key in place, so
the key predicate composes away. -/
theorem comp_join_eq (nk v : String) :
    ((fun e : String × String => e.1 == nk) ∘
        (fun e : String × String => if e.1 == nk then (e.1, e.2 ++ ", " ++ v) else e)) =
      (fun e : String × String => e.1 == nk) := by
  funext e
  by_cases he : e.1 = nk <;> simp [he]

/-- Same for the value-replacing rewrite of `set`. -/
theorem comp_set_eq (nk v : String) :
    ((fun e : String × String => e.1 == nk) ∘
        (fun e : String × String => if e.1 == nk then (e.1, v) else e)) =
      (fun e : String × String => e.1 == nk) := by
  funext e
  by_cases he : e.1 = nk <;> simp [he]

theorem comp_join_eq_other (nk nq v : String) :
    ((fun e : String × String => e.1 == nq) ∘
        (fun e : String × String => if e.1 == nk then (e.1, e.2 ++ ", " ++ v) else e)) =
      (fun e : String × String => e.1 == nq) := by
  funext e
  by_cases he : e.1 = nk <;> simp [he]

theorem find?_eq_none_of_not_any (l : List (String × String)) (p : String × String → Bool)
    (hany : ¬ l.any p = true) : l.find? p = none := by
  rw [List.find?_eq_none]
  intro x hx hpx
  exact hany (List.any_eq_true.2 ⟨x, hx, hpx⟩)

/-- Appending under the (normalized) key read back: the old value is
joined with the new one, or the new value is stored. -/
theorem get_append_self (h : HeaderMap) (k v q : String) (hq : normKey q = normKey k) :
    (h.append k v).get q =
      some (match h.get q with
            | some w => w ++ ", " ++ v
            | none => v) := by
  unfold HeaderMap.append HeaderMap.get
  simp only [hq]
  by_cases hany : (h.entries.any (fun e => e.1 == normKey k)) = true
  · rw [if_pos hany]
    rw [List.find?_map, comp_join_eq]
    cases hfind : h.entries.find? (fun e => e.1 == normKey k) with
    | none =>
      exfalso
      obtain ⟨x, hx, hpx⟩ := List.any_eq_true.1 hany
      rw [List.find?_eq_none] at hfind
      exact hfind x hx hpx
    | some e =>
      have he := List.find?_some hfind
      simp only [Option.map_some']
      simp [he]
  · rw [if_neg hany]
    have hnone := find?_eq_none_of_not_any h.entries _ hany
    rw [List.find?_append, hnone]
    rw [List.find?_cons_of_pos _ (by simp)]
    simp [hnone]

/-- Appending under a different (normalized) key leaves a read
untouched. -/
theorem get_append_other (h : HeaderMap) (k v q : String) (hq : normKey q ≠ normKey k) :
    (h.append k v).get q = h.get q := by
  unfold HeaderMap.append HeaderMap.get
  by_cases hany : (h.entries.any (fun e => e.1 == normKey k)) = true
  · rw [if_pos hany]
    rw [List.find?_map, comp_join_eq_other]
    cases hfind : h.entries.find? (fun e => e.1 == normKey q) with
    | none => simp
    | some e =>
      have he := List.find?_some hfind
      have hek : ¬ e.1 = normKey k := by
        intro hcontra
        exact hq (by rw [← beq_iff_eq.1 he, hcontra])
      simp [hek]
  · rw [if_neg hany]
    rw [List.find?_append]
    rw [List.find?_cons_of_neg _ (by
      simp only [beq_iff_eq]
      exact fun hcontra => hq hcontra.symm)]
    cases hfind : h.entries.find? (fun e => e.1 == normKey q) <;> simp

/-- Setting a key reads back the new value. -/
theorem get_set_self (h : HeaderMap) (k v q : String) (hq : normKey q = normKey k) :
    (h.set k v).get q = some v := by
  unfold HeaderMap.set HeaderMap.get
  simp only [hq]
  by_cases hany : (h.entries.any (fun e => e.1 == normKey k)) = true
  · rw [if_pos hany]
    rw [List.find?_map, comp_set_eq]
    cases hfind : h.entries.find? (fun e => e.1 == normKey k) with
    | none =>
      exfalso
      obtain ⟨x, hx, hpx⟩ := List.any_eq_true.1 hany
      rw [List.find?_eq_none] at hfind
      exact hfind x hx hpx
    | some e =>
      have he := List.find?_some hfind
      simp only [Option.map_some']
      simp [he]
  · rw [if_neg hany]
    have hnone := find?_eq_none_of_not_any h.entries _ hany
    rw [List.find?_append, hnone]
    rw [List.find?_cons_of_pos _ (by simp)]
    simp

/-- Folding appends whose keys all differ from the read key leaves the
read untouched. -/
theorem get_foldl_append_preserve (es : List (String × String)) (h : HeaderMap) (q : String)
    (hnorm : ∀ e ∈ es, normKey e.1 = e.1)
    (hne : ∀ e ∈ es, e.1 ≠ normKey q) :
    (es.foldl (fun h e => h.append e.1 e.2) h).get q = h.get q := by
  induction es generalizing h with
  | nil => rfl
  | cons e es ih =>
    rw [List.foldl_cons]
    rw [ih (h.append e.1 e.2) (fun x hx => hnorm x (List.mem_cons_of_mem _ hx))
      (fun x hx => hne x (List.mem_cons_of_mem _ hx))]
    exact get_append_other h e.1 e.2 q (by
      rw [hnorm e (List.mem_cons_self _ _)]
      exact fun hcontra => hne e (List.mem_cons_self _ _) hcontra.symm)

/-- Folding appends of a well-formed entry list containing the read key
joins the existing value with that entry's value. -/
theorem get_foldl_append_join (es : List (String × String)) (h : HeaderMap) (q va vb : String)
    (hnorm : keysNormalized es = true)
    (hdist : keysDistinct es = true)
    (ha : h.get q = some va)
    (hb : (es.find? (fun e => e.1 == normKey q)).map (fun e => e.2) = some vb) :
    (es.foldl (fun h e => h.append e.1 e.2) h).get q = some (va ++ ", " ++ vb) := by
  induction es generalizing h with
  | nil => simp [List.find?] at hb
  | cons e es ih =>
    have hnormC : (e.1 == normKey e.1) = true ∧ keysNormalized es = true := by
      unfold keysNormalized at hnorm ⊢
      rw [List.all_cons, Bool.and_eq_true] at hnorm
      exact hnorm
    have hnormE : normKey e.1 = e.1 := (beq_iff_eq.1 hnormC.1).symm
    have hnorm' : keysNormalized es = true := hnormC.2
    have hdistC : (!es.any (fun x => x.1 == e.1)) = true ∧ keysDistinct es = true := by
      unfold keysDistinct at hdist
      rw [Bool.and_eq_true] at hdist
      exact hdist
    have hdistE : es.any (fun x => x.1 == e.1) = false := by
      have := hdistC.1
      rwa [Bool.not_eq_true'] at this
    have hdist' : keysDistinct es = true := hdistC.2
    by_cases he : (e.1 == normKey q) = true
    · have heq : e.1 = normKey q := beq_iff_eq.1 he
      simp only [List.find?, he, Option.map_some'] at hb
      have hvb : e.2 = vb := Option.some.inj hb
      rw [List.foldl_cons]
      rw [get_foldl_append_preserve es (h.append e.1 e.2) q
        (by
          intro x hx
          unfold keysNormalized at hnorm'
          rw [List.all_eq_true] at hnorm'
          exact (beq_iff_eq.1 (hnorm' x hx)).symm
          )
        (by
          intro x hx hcontra
          rw [List.any_eq_false] at hdistE
          exact hdistE x hx (by rw [hcontra, ← heq]; simp)
          )]
      rw [get_append_self h e.1 e.2 q (by rw [hnormE, heq]), ha, hvb]
    · have he' : (e.1 == normKey q) = false := by
        rwa [Bool.not_eq_true] at he
      simp only [List.find?, he'] at hb
      rw [List.foldl_cons]
      have hne : normKey q ≠ normKey e.1 := by
        rw [hnormE]
        intro hcontra
        exact he (beq_iff_eq.2 hcontra.symm)
      refine ih (h.append e.1 e.2) hnorm' hdist' ?_ hb
      rw [get_append_other h e.1 e.2 q hne]
      exact ha

end HeaderMap

/-! ## Claim theorems -/

/-- Claim C1 (counterexample): with parent headers x-a: 1 and child
headers x-a: 2, the merged map reads back "1, 2" (Headers.append list
semantics), not the child's value "2" — so the claim that the child's
value wins, with no list-append, is false on the code. -/
theorem c1_counterexample :
    (mergeOptions { headers := HeaderMap.ofInit [("x-a", "1")] }
        { headers := HeaderMap.ofInit [("x-a", "2")] }).headers.get "x-a" = some "1, 2" ∧
    (HeaderMap.ofInit [("x-a", "2")]).get "x-a" = some "2" ∧
    some "1, 2" ≠ (some "2" : Option String) := by
  refine ⟨by decide, by decide, by decide⟩

/-- Claim C1 (amended): for configurations A and B and a header key
present in both (child map well formed as the platform container keeps
it), the merged configuration's value at that key is the parent's value
followed by the child's value, joined with ", " — Headers.append
semantics, not child-wins. -/
theorem c1_amended (A B : Options) (k va vb : String)
    (hB : B.headers.WF = true)
    (ha : A.headers.get k = some va)
    (hb : B.headers.get k = some vb) :
    (mergeOptions A B).headers.get k = some (va ++ ", " ++ vb) := by
  have hnorm : HeaderMap.keysNormalized B.headers.entries = true := by
    unfold HeaderMap.WF at hB
    simp only [Bool.and_eq_true] at hB
    exact hB.1
  have hdist : HeaderMap.keysDistinct B.headers.entries = true := by
    unfold HeaderMap.WF at hB
    simp only [Bool.and_eq_true] at hB
    exact hB.2
  exact HeaderMap.get_foldl_append_join B.headers.entries A.headers k va vb hnorm hdist ha hb

/-- Claim C1 (witness): a concrete instance of the amended statement. -/
theorem c1_witness :
    (mergeOptions { headers := HeaderMap.ofInit [("x-b", "p")] }
        { headers := HeaderMap.ofInit [("x-b", "c")] }).headers.get "x-b" = some "p, c" :=
  c1_amended { headers := HeaderMap.ofInit [("x-b", "p")] }
    { headers := HeaderMap.ofInit [("x-b", "c")] } "x-b" "p" "c"
    (by decide) (by decide) (by decide)

/-- Claim C7: the merged configuration's path fragment is the
concatenation of the parent's and the child's fragments, an absent
fragment contributing the empty string; the child never overwrites the
parent's fragment. -/
theorem c7_holds (A B : Options) :
    (mergeOptions A B).resource = some ((A.resource.getD "") ++ (B.resource.getD "")) := rfl

/-- Claim C4: when no absolute base can be determined and the path
fragment is not itself absolute (and no failure hook recovers), the
request fails with the invalid-target error of the taxonomy — not a
timeout or response error — and the transport is never invoked: the run
settles with that error and an empty trace. -/
theorem c4_holds (t : Transport) (fuel : Nat) (b : Options) (a : Nat)
    (hres : isAbsoluteURL ((mergeOptions DEFAULTS b).resource.getD "") = false)
    (hbase : ∀ s, (mergeOptions DEFAULTS b).base = some s → isAbsoluteURL s = false)
    (hfail : (mergeOptions DEFAULTS b).onFailure = none) :
    runReq t (fuel + 1) b a = (.error .invalidTarget, []) := by
  have hmat : materialize (mergeOptions DEFAULTS b) = .error .invalidTarget := by
    unfold materialize resolveURL
    rw [hres]
    cases hb : (mergeOptions DEFAULTS b).base with
    | none => simp
    | some s => simp [hbase s hb]
  simp only [runReq, hmat, postChain, hfail]

/-- Claim C4 (witness): concrete instance with a relative path and no
base at all. -/
theorem c4_witness :
    runReq (fun _ => .ok { status := 200 }) 1 { resource := some "/posts" } 0 =
      (.error .invalidTarget, []) :=
  c4_holds (fun _ => .ok { status := 200 }) 0 { resource := some "/posts" } 0
    (by decide) (fun s hs => Option.noConfusion hs) rfl

/-- Claim C5: with a positive timeout and a transport that has not
settled within it (and no external cancellation), the coordinator
rejects with TimeoutError, the internal controller is aborted, and it is
the internal controller's signal that was handed to the transport. -/
theorem c5_holds (timeout : Nat) (settleAt : Option Nat) (result : Except Err Response)
    (hpos : 0 < timeout)
    (hlate : ∀ s, settleAt = some s → timeout < s) :
    coordinate timeout settleAt none result =
      { outcome := some (.error .timeoutError), internalAborted := true,
        fetchSignalInternal := true } := by
  unfold coordinate
  have h1 : winsOver settleAt (some timeout) = false := by
    cases settleAt with
    | none => rfl
    | some s =>
      have hs := hlate s rfl
      simp only [winsOver, decide_eq_false_iff_not]
      omega
  have h0 : timeout ≠ 0 := Nat.pos_iff_ne_zero.1 hpos
  rw [if_neg h0]
  rw [if_neg (by rw [h1]; simp)]
  rw [if_neg (by simp [winsOver])]

/-- Claim C5 (witness): timeout 10, transport settling at 50. -/
theorem c5_witness :
    coordinate 10 (some 50) none (.ok { status := 200 }) =
      { outcome := some (.error .timeoutError), internalAborted := true,
        fetchSignalInternal := true } :=
  c5_holds 10 (some 50) (.ok { status := 200 }) (by decide)
    (fun s hs => by injection hs with h; omega)

/-- Claim C6: with a non-null JSON payload in the merged options (and a
resolvable target), the dispatched body is exactly the serialized JSON
text and the dispatched content-type header is the JSON media type —
the override wins whatever content-type the caller's headers carried,
because Headers.set replaces the value. -/
theorem c6_holds (o : Options) (j : Json)
    (hj : o.json = some j) (hne : j ≠ Json.null)
    (hurl : ∃ u, resolveURL (o.resource.getD "") o.base = .ok u) :
    ∃ d, materialize o = .ok d ∧
      d.body = some (.text (Json.stringify j)) ∧
      d.headers.get "content-type" = some "application/json" := by
  obtain ⟨u, hu⟩ := hurl
  unfold materialize
  rw [hu, hj]
  cases j
  case null => exact absurd rfl hne
  all_goals exact ⟨_, rfl, rfl,
    HeaderMap.get_set_self o.headers "content-type" "application/json" "content-type" rfl⟩

/-- Claim C6 (witness): JSON payload with a conflicting caller
content-type header; the dispatched header map reads back the JSON media
type and the body is the serialized text. -/
theorem c6_witness :
    ∃ d,
      materialize
          { base := some "http://localhost",
            headers := HeaderMap.ofInit [("content-type", "text/plain")],
            json := some (.obj [("title", .str "x")]) } = .ok d ∧
      d.body = some (.text (Json.stringify (.obj [("title", .str "x")]))) ∧
      d.headers.get "content-type" = some "application/json" :=
  c6_holds
    { base := some "http://localhost",
      headers := HeaderMap.ofInit [("content-type", "text/plain")],
      json := some (.obj [("title", .str "x")]) }
    (.obj [("title", .str "x")]) rfl (fun h => Json.noConfusion h) ⟨_, rfl⟩

/-- Claim C8: with a multipart form body and no JSON payload, the
materializer leaves the header map untouched: the dispatched
content-type entry is exactly the caller's (and absent when the caller
supplied none). -/
theorem c8_holds (o : Options)
    (hj : o.json = none ∨ o.json = some Json.null)
    (_hbody : o.body = some Body.formData)
    (hurl : ∃ u, resolveURL (o.resource.getD "") o.base = .ok u) :
    ∃ d, materialize o = .ok d ∧ d.headers = o.headers ∧
      d.headers.get "content-type" = o.headers.get "content-type" := by
  obtain ⟨u, hu⟩ := hurl
  unfold materialize
  rw [hu]
  cases hj with
  | inl h => rw [h]; exact ⟨_, rfl, rfl, rfl⟩
  | inr h => rw [h]; exact ⟨_, rfl, rfl, rfl⟩

/-- Claim C8 (witness): form-data body, no JSON payload, no caller
content-type — the dispatched map has none either. -/
theorem c8_witness :
    ∃ d,
      materialize
          { base := some "http://localhost", body := some Body.formData } = .ok d ∧
      d.headers = ({ base := some "http://localhost", body := some Body.formData } :
        Options).headers ∧
      d.headers.get "content-type" =
        ({ base := some "http://localhost", body := some Body.formData } :
          Options).headers.get "content-type" :=
  c8_holds { base := some "http://localhost", body := some Body.formData }
    (Or.inl rfl) rfl ⟨_, rfl⟩

/-- Claim C9: a decode operation on an unconsumed settled response
succeeds and returns the original response unchanged — so running the
same decode again yields the same value and never a body-already-used
error, because the operation clones before consuming; the void decode
resolves to an absent value without cloning at all. -/
theorem c9_holds (parse : String → Json) (o : Options) (k : DecodeKind) (r : Response) :
    (r.bodyUsed = false →
      bodyMethod parse o k r = .ok (decodeValue parse o k r, r)) ∧
    bodyMethod parse o DecodeKind.void r = .ok (none, r) := by
  constructor
  · intro h
    cases k <;> simp [bodyMethod, cloneResponse, consumeBody, decodeValue, h]
  · rfl

/-- Claim C9 (witness): text decode of a concrete response, and the void
decode of the same response. -/
theorem c9_witness :
    (bodyMethod (fun _ => Json.null) ({} : Options) DecodeKind.text
        { status := 200, bodyText := "hello" } =
      .ok (decodeValue (fun _ => Json.null) ({} : Options) DecodeKind.text
        { status := 200, bodyText := "hello" },
        { status := 200, bodyText := "hello" })) ∧
    bodyMethod (fun _ => Json.null) ({} : Options) DecodeKind.void
        { status := 200, bodyText := "hello" } =
      .ok (none, { status := 200, bodyText := "hello" }) :=
  ⟨(c9_holds (fun _ => Json.null) ({} : Options) DecodeKind.text
      { status := 200, bodyText := "hello" }).1 rfl,
   (c9_holds (fun _ => Json.null) ({} : Options) DecodeKind.void
      { status := 200, bodyText := "hello" }).2⟩

/-- Leading non-wait events do not affect the backoff check. -/
theorem waitsAreBackoff_cons_fetched (a : Nat) (tr : List Ev) :
    waitsAreBackoff (Ev.fetched a :: tr) = waitsAreBackoff tr := rfl

theorem waitsAreBackoff_cons_retryChecked (a : Nat) (dec : Bool) (tr : List Ev) :
    waitsAreBackoff (Ev.retryChecked a dec :: tr) = waitsAreBackoff tr := rfl

theorem waitsAreBackoff_cons_waited (a ms : Nat) (tr : List Ev) :
    waitsAreBackoff (Ev.waited a ms :: tr) = ((ms == 300 * 2 ^ a) && waitsAreBackoff tr) := rfl

theorem waitsAreBackoff_append (l1 l2 : List Ev) :
    waitsAreBackoff (l1 ++ l2) = (waitsAreBackoff l1 && waitsAreBackoff l2) :=
  List.all_append

/-- The hook tail of a frame records classifications, successes and
failures but never a wait. -/
theorem waitsAreBackoff_postChain (o : Options) (a : Nat) (x : Except Err Response) :
    waitsAreBackoff (postChain o a x).2 = true := by
  unfold postChain
  repeat' split
  all_goals rfl

/-- Claim C3 (amended): the retry predicate is consulted on the
decorated raw result of each attempt directly after the transport
fulfils and before the classification hook runs: every fulfilled
attempt's trace begins with the transport invocation immediately
followed by the retry check. -/
theorem c3_amended (t : Transport) (fuel : Nat) (b : Options) (a : Nat) (r : Response)
    (hmat : ∃ d, materialize (mergeOptions DEFAULTS b) = .ok d)
    (ht : t a = .ok r) :
    ∃ rest, (runReq t (fuel + 1) b a).2 =
      .fetched a ::
      .retryChecked a (((mergeOptions DEFAULTS b).retry.getD (fun _ => false))
        { r with attempt := a }) :: rest := by
  obtain ⟨d, hd⟩ := hmat
  simp only [runReq, hd, ht]
  by_cases hdec : ((mergeOptions DEFAULTS b).retry.getD (fun _ => false))
      { r with attempt := a } = true
  · simp only [hdec, if_true]
    exact ⟨_, rfl⟩
  · rw [Bool.not_eq_true] at hdec
    simp only [hdec, if_false]
    exact ⟨_, rfl⟩

/-- Claim C3 (counterexample): on a plain successful request the trace
is transport invocation, retry check, classification, in that order —
the retry predicate runs before onResponse, on the raw result, so the
claimed ordering (classification before the retry check) is false on
the code. -/
theorem c3_counterexample :
    (runReq (fun _ => .ok { status := 200 }) 1
        { base := some "http://localhost", resource := some "/x" } 0).2 =
      [.fetched 0, .retryChecked 0 false, .classified 0] ∧
    checksAfterClassified []
      (runReq (fun _ => .ok { status := 200 }) 1
        { base := some "http://localhost", resource := some "/x" } 0).2 = false :=
  ⟨by decide, by decide⟩

def w3T : Transport := fun _ => .ok { status := 503 }

def w3B : Options := { base := some "http://localhost", resource := some "/y" }

/-- Claim C3 (witness): concrete instance of the amended ordering. -/
theorem c3_witness :
    ∃ rest, (runReq w3T 2 w3B 0).2 =
      .fetched 0 ::
      .retryChecked 0 (((mergeOptions DEFAULTS w3B).retry.getD (fun _ => false))
        { ({ status := 503 } : Response) with attempt := 0 }) :: rest :=
  c3_amended w3T 1 w3B 0 { status := 503 } ⟨_, rfl⟩ rfl

/-- Claim C2 (amended): the wait before a retried attempt is always the
value of the delay function — with the default delay the exponential
backoff 0.3·2^attempt seconds, exactly 300·2^attempt milliseconds —
regardless of any retry-after directive carried by the result: every
wait recorded by a run whose merged options carry the default delay is
the backoff value. -/
theorem c2_amended (t : Transport) (fuel : Nat) (b : Options) (a : Nat)
    (hdelay : (mergeOptions DEFAULTS b).delay = some defaultDelay) :
    waitsAreBackoff (runReq t fuel b a).2 = true := by
  induction fuel generalizing b a with
  | zero => rfl
  | succ fuel ih =>
    simp only [runReq]
    cases hmat : materialize (mergeOptions DEFAULTS b) with
    | error e => exact waitsAreBackoff_postChain _ _ _
    | ok d =>
      cases ht : t a with
      | error e =>
        exact waitsAreBackoff_postChain (mergeOptions DEFAULTS b) a (.error e)
      | ok r0 =>
        have hdelay' : (mergeOptions DEFAULTS (mergeOptions DEFAULTS b)).delay =
            some defaultDelay := by
          show ((mergeOptions DEFAULTS b).delay <|> DEFAULTS.delay) = some defaultDelay
          rw [hdelay]
          rfl
        by_cases hdec : ((mergeOptions DEFAULTS b).retry.getD (fun _ => false))
            { r0 with attempt := a } = true
        · simp only [hdec, if_true]
          rw [waitsAreBackoff_cons_fetched, waitsAreBackoff_cons_retryChecked,
            waitsAreBackoff_cons_waited, waitsAreBackoff_append]
          rw [hdelay]
          rw [ih (mergeOptions DEFAULTS b) (a + 1) hdelay']
          rw [waitsAreBackoff_postChain (mergeOptions DEFAULTS b) a _]
          simp [defaultDelay]
        · rw [Bool.not_eq_true] at hdec
          simp only [hdec, Bool.false_eq_true, if_false]
          exact waitsAreBackoff_postChain (mergeOptions DEFAULTS b) a _

/-- Claim C2 (witness): a concrete run with the default delay. -/
theorem c2_witness :
    waitsAreBackoff (runReq w3T 5 w3B 0).2 = true :=
  c2_amended w3T 5 w3B 0 rfl

/-- A 503 result carrying a retry-after directive of 5 whole seconds. -/
def c2Resp : Response :=
  { status := 503, headers := HeaderMap.ofInit [("retry-after", "5")] }

/-- Claim C2 (counterexample): the transport keeps answering 503 with a
retry-after header of 5 whole seconds; the run (default options) waits
the backoff 300 ms and then 600 ms, not the 5000 ms the directive
dictates — the retry-after branch of the claim has no counterpart in
the code. -/
theorem c2_counterexample :
    waitedOf (runReq (fun _ => .ok c2Resp) 5
        { base := some "http://localhost", resource := some "/x" } 0).2 =
      [(0, 300), (1, 600)] ∧
    specDelayC2 { c2Resp with attempt := 0 } = 5000 ∧
    (300 : Nat) ≠ 5000 :=
  ⟨by decide, by decide, by decide⟩

def w10T : Transport := fun _ => .ok { status := 500 }

def w10B : Options := { base := some "http://localhost", resource := some "/w" }

/-- Claim C10: a positive retry decision makes the next attempt a full
recursive invocation of the pipeline at attempt + 1, and the enclosing
frame then applies its own onResponse / onSuccess / onFailure tail to
the inner invocation's final value; concretely, a default-hook run that
retries twice records 3 = n + 1 classification-hook executions on the
path of the value returned to the caller. -/
theorem c10_holds :
    (∀ (t : Transport) (fuel : Nat) (b : Options) (a : Nat) (r : Response),
      (∃ d, materialize (mergeOptions DEFAULTS b) = .ok d) →
      t a = .ok r →
      ((mergeOptions DEFAULTS b).retry.getD (fun _ => false)) { r with attempt := a } = true →
      runReq t (fuel + 1) b a =
        ((postChain (mergeOptions DEFAULTS b) a
            (runReq t fuel (mergeOptions DEFAULTS b) (a + 1)).1).1,
          .fetched a :: .retryChecked a true ::
            .waited a (((mergeOptions DEFAULTS b).delay.getD (fun _ => 0))
              { r with attempt := a }) ::
            ((runReq t fuel (mergeOptions DEFAULTS b) (a + 1)).2 ++
              (postChain (mergeOptions DEFAULTS b) a
                (runReq t fuel (mergeOptions DEFAULTS b) (a + 1)).1).2))) ∧
    countClassified (runReq
        (fun a => .ok (if a < 2 then { status := 500 } else { status := 200 })) 5
        { base := some "http://localhost", resource := some "/x" } 0).2 = 3 := by
  constructor
  · intro t fuel b a r hmat ht hdec
    obtain ⟨d, hd⟩ := hmat
    simp only [runReq, hd, ht, hdec, if_true]
  · decide

/-- Claim C10 (witness): concrete instance of the recursion equation. -/
theorem c10_witness :
    runReq w10T 2 w10B 0 =
      ((postChain (mergeOptions DEFAULTS w10B) 0
          (runReq w10T 1 (mergeOptions DEFAULTS w10B) 1).1).1,
        .fetched 0 :: .retryChecked 0 true ::
          .waited 0 (((mergeOptions DEFAULTS w10B).delay.getD (fun _ => 0))
            { ({ status := 500 } : Response) with attempt := 0 }) ::
          ((runReq w10T 1 (mergeOptions DEFAULTS w10B) 1).2 ++
            (postChain (mergeOptions DEFAULTS w10B) 0
              (runReq w10T 1 (mergeOptions DEFAULTS w10B) 1).1).2)) :=
  c10_holds.1 w10T 1 w10B 0 { status := 500 } ⟨_, rfl⟩ rfl (by decide)

end YaFetch
